import Mathlib

/-!
# ServeMate DTO validation core — shallow embedding

The repository is a data-contract layer: Zod schema definitions with
runtime validators for a restaurant-management platform.  The snapshot
contains the test suite (`src/tests`, `src/unnamed/part_000`,
`src/unnamed/part_001`), the documentation (`README.md`,
`PRISMA_DTO_USAGE.md`) and packaging metadata, but the schema modules
themselves (`src/dto/*.ts`) are not present.  The validation engine and
every schema below are therefore modelled from the specification, pinned
by the behaviours the in-repo tests exercise.
-/

namespace ServeMate

/-- A runtime value crossing the validation boundary: the deserialized
JSON body or query object handed to a schema's `parse`.  `jdate` stands
for a native `Date` instance (epoch milliseconds). -/
inductive JValue where
  | jnull
  | jbool (b : Bool)
  | jnum (q : ℚ)
  | jstr (s : String)
  | jdate (t : Int)
  | jarr (xs : List JValue)
  | jobj (fields : List (String × JValue))

open JValue

/-- A structured per-field validation error: field path and message. -/
abbrev FieldError := String × String

/-- Look a key up in an object's field list (first match wins). -/
def lookupField (fs : List (String × JValue)) (k : String) : Option JValue :=
  match fs with
  | [] => none
  | (n, v) :: rest => if n = k then some v else lookupField rest k

/-- Modelled from the spec: one field-rule pair of a schema ("model each
entity schema as an ordered list of field-rule pairs", §9).  The rule
receives the field's value when present (`some v`) or `none` when the key
is absent; it returns the normalized value, `none` to leave the field
absent from the output, or the list of messages for a validation
failure. -/
structure Field where
  name : String
  rule : Option JValue → Except (List String) (Option JValue)

/-- Run every field rule of a schema against an object's entries. -/
def runFields (fs : List Field) (o : List (String × JValue)) :
    List (String × Except (List String) (Option JValue)) :=
  fs.map fun f => (f.name, f.rule (lookupField o f.name))

/-- Collect every error of every failed field into one aggregate list
(the spec: "all per-field errors are collected into a single aggregate
failure per parse call", §7). -/
def collectErrs (rs : List (String × Except (List String) (Option JValue))) :
    List FieldError :=
  rs.foldr
    (fun p acc =>
      match p.2 with
      | .error es => es.map (fun e => (p.1, e)) ++ acc
      | .ok _ => acc)
    []

/-- Collect the normalized output entries of the successful fields,
in schema field order; absent optional fields are dropped. -/
def collectOut (rs : List (String × Except (List String) (Option JValue))) :
    List (String × JValue) :=
  rs.foldr
    (fun p acc =>
      match p.2 with
      | .ok (some v) => (p.1, v) :: acc
      | _ => acc)
    []

/-- Modelled from the spec: the validation entry point shared by every
schema (`parse`).  Validates all fields, collects all errors; when every
per-field rule passes, a cross-field refinement runs on the normalized
output ("cross-field refinements run after per-field validation", §4.2);
unknown keys are stripped.  Success is a normalized object, failure the
aggregate error list — a value "distinguishable by type" from success. -/
def parseObjWith (fs : List Field)
    (refine : List (String × JValue) → List FieldError) :
    JValue → Except (List FieldError) JValue
  | jobj o =>
    let rs := runFields fs o
    let errs := collectErrs rs
    if errs.isEmpty then
      let out := collectOut rs
      match refine out with
      | [] => .ok (jobj out)
      | es => .error es
    else .error errs
  | _ => .error [("", "Expected object")]

/-- A schema with no cross-field refinement. -/
def parseObj (fs : List Field) : JValue → Except (List FieldError) JValue :=
  parseObjWith fs (fun _ => [])

/-! ## String primitives (split / trim / case), on `List Char` -/

/-- Whitespace characters stripped by string trimming. -/
def isWs (c : Char) : Bool :=
  c = ' ' || c = '\t' || c = '\n' || c = '\r'

/-- Trim whitespace from both ends of a character list. -/
def trimL (l : List Char) : List Char :=
  ((l.dropWhile isWs).reverse.dropWhile isWs).reverse

/-- Split a character list at every comma (JS `s.split(',')`): the empty
input yields one empty segment, and a trailing comma yields a trailing
empty segment. -/
def splitCommasL : List Char → List (List Char)
  | [] => [[]]
  | c :: rest =>
    if c = ',' then [] :: splitCommasL rest
    else
      match splitCommasL rest with
      | [] => [[c]]
      | t :: ts => (c :: t) :: ts

/-- Join segments with a comma separator (inverse of `splitCommasL` on
comma-free segments). -/
def joinCommas : List (List Char) → List Char
  | [] => []
  | [t] => t
  | t :: rest => t ++ ',' :: joinCommas rest

/-- Upper-case every character. -/
def upperL (l : List Char) : List Char := l.map Char.toUpper

/-- Lower-case every character. -/
def lowerL (l : List Char) : List Char := l.map Char.toLower

/-- Title case: first character upper, the rest lower. -/
def titleL : List Char → List Char
  | [] => []
  | c :: rest => Char.toUpper c :: lowerL rest

/-- Upper-case a string. -/
def upperStr (s : String) : String := ⟨upperL s.data⟩

/-- Modelled from the spec: the shared normalization pipeline for
delimited lists (`§4.1`): trim each segment, drop the segments that are
empty after trimming, and apply the field's canonical casing. -/
def normalizeSegs (cas : List Char → List Char) (segs : List (List Char)) :
    List (List Char) :=
  ((segs.map trimL).filter (fun l => !l.isEmpty)).map cas

/-! ## Numeric-string coercion -/

/-- Numeric value of a decimal digit character. -/
def digitVal (c : Char) : Nat := c.toNat - 48

/-- Read a non-empty digit run as a natural number. -/
def natOfDigits (l : List Char) : Nat :=
  l.foldl (fun n c => 10 * n + digitVal c) 0

/-- Parse an unsigned decimal numeral `d+` or `d+.d+`. -/
def parseUnsignedNum (l : List Char) : Option ℚ :=
  match l.span Char.isDigit with
  | (ds, []) => if ds.isEmpty then none else some (natOfDigits ds : ℚ)
  | (ds, '.' :: fr) =>
    if ds.isEmpty || fr.isEmpty || !fr.all Char.isDigit then none
    else some (mkRat (natOfDigits (ds ++ fr)) (10 ^ fr.length))
  | _ => none

/-- Modelled from the spec: numeric-from-string coercion (`§4.1`):
"accepts a number or a numeric string; rejects non-numeric strings". -/
def parseNumStr (s : String) : Option ℚ :=
  match s.data with
  | '-' :: rest => (parseUnsignedNum rest).map (fun q => -q)
  | l => parseUnsignedNum l

/-! ## Enumerated domain values (closed string sets)

Modelled from the spec and `README.md` (`src/unnamed/part_002`): the
enum generator's output is out of scope, so each closed set is listed
here; members beyond those the documentation and tests name are
representative. -/

/-- User roles (`README.md`, User Related enums). -/
def userRoles : List String := ["ADMIN", "USER", "HOST", "MANAGER"]

/-- Order lifecycle states (`README.md`, Order Related enums). -/
def orderStates : List String :=
  ["AWAITING", "RECEIVED", "SERVED", "CANCELED", "DISPUTED",
   "READY_TO_PAY", "COMPLETED"]

/-- Payment methods (`README.md`, Payment Related enums). -/
def paymentMethods : List String := ["CASH", "CREDIT_CARD", "DEBIT_CARD"]

/-- Payment states (`README.md`, Payment Related enums). -/
def paymentStates : List String :=
  ["NONE", "PAID", "REFUNDED", "CANCELLED", "PENDING"]

/-- Allergy enum members (from the values the tests exercise). -/
def allergyValues : List String :=
  ["NONE", "PEANUT", "SOY", "SHELLFISH", "GLUTEN", "DAIRY", "CELERY",
   "FISH", "EGG"]

/-- Food categories (from the values the tests exercise). -/
def foodCategories : List String :=
  ["SOUP", "SALAD", "SEAFOOD", "PIZZA", "PASTA", "OTHER"]

/-- Food types (from the values the tests exercise). -/
def foodTypes : List String :=
  ["APPETIZER", "MAIN_COURSE", "DESSERT", "OTHER"]

/-- Spice levels (from the values the tests exercise). -/
def spiceLevels : List String :=
  ["NOT_SPICY", "MILD", "MEDIUM", "HOT", "EXTRA_HOT"]

/-- Table conditions (from the values the tests exercise). -/
def tableConditions : List String :=
  ["AVAILABLE", "OCCUPIED", "RESERVED", "MAINTENANCE"]

/-- Sortable table columns; `TableSortOptionsEnum.ID = "id"`. -/
def tableSortOptions : List String :=
  ["id", "tableNumber", "capacity", "status"]

/-- Sortable order columns. -/
def orderSortOptions : List String :=
  ["id", "tableNumber", "orderNumber", "status", "totalAmount", "orderTime"]

/-- Sort directions. -/
def sortOrders : List String := ["asc", "desc"]

/-! ## Value rules (per-field validators) -/

/-- Accept a number or a numeric string, producing the number
(`z.coerce.number()`); anything else is a type mismatch. -/
def coerceNum (v : JValue) : Except (List String) ℚ :=
  match v with
  | .jnum q => .ok q
  | .jstr s =>
    match parseNumStr s with
    | some q => .ok q
    | none => .error ["Expected number, received nan"]
  | _ => .error ["Expected number"]

/-- Non-negative number (monetary/quantity fields): the violated bound
is a constraint error, never clamped. -/
def ruleNonneg (v : JValue) : Except (List String) JValue :=
  match v with
  | .jnum q =>
    if 0 ≤ q then .ok (.jnum q)
    else .error ["Number must be greater than or equal to 0"]
  | _ => .error ["Expected number"]

/-- Positive integer (identity / table / order numbers). -/
def rulePosInt (v : JValue) : Except (List String) JValue :=
  match v with
  | .jnum q =>
    if q.den = 1 ∧ 0 < q then .ok (.jnum q)
    else .error ["Expected positive integer"]
  | _ => .error ["Expected number"]

/-- Positive integer with string coercion (query-parameter ids). -/
def ruleCoercePosInt (v : JValue) : Except (List String) JValue :=
  match coerceNum v with
  | .error es => .error es
  | .ok q =>
    if q.den = 1 ∧ 0 < q then .ok (.jnum q)
    else .error ["Expected positive integer"]

/-- Non-negative integer with string coercion (capacities, counts). -/
def ruleCoerceNonnegInt (v : JValue) : Except (List String) JValue :=
  match coerceNum v with
  | .error es => .error es
  | .ok q =>
    if q.den = 1 ∧ 0 ≤ q then .ok (.jnum q)
    else .error ["Expected non-negative integer"]

/-- Bounded integer with string coercion (`pageSize`: 1–100). -/
def ruleIntRange (lo hi : ℚ) (v : JValue) : Except (List String) JValue :=
  match coerceNum v with
  | .error es => .error es
  | .ok q =>
    if q.den = 1 ∧ lo ≤ q ∧ q ≤ hi then .ok (.jnum q)
    else .error ["Number out of range"]

/-- Any string. -/
def ruleStr (v : JValue) : Except (List String) JValue :=
  match v with
  | .jstr s => .ok (.jstr s)
  | _ => .error ["Expected string"]

/-- Non-empty string (display names). -/
def ruleNonemptyStr (v : JValue) : Except (List String) JValue :=
  match v with
  | .jstr s =>
    if s.isEmpty then .error ["String must contain at least 1 character"]
    else .ok (.jstr s)
  | _ => .error ["Expected string"]

/-- Modelled from the spec: email format validation ("email (validated
format)", §3); the format check is abstracted to the presence of an
`@` separator. -/
def ruleEmail (v : JValue) : Except (List String) JValue :=
  match v with
  | .jstr s =>
    if s.data.contains '@' then .ok (.jstr s)
    else .error ["Invalid email"]
  | _ => .error ["Expected string"]

/-- A native boolean only. -/
def ruleBoolStrict (v : JValue) : Except (List String) JValue :=
  match v with
  | .jbool b => .ok (.jbool b)
  | _ => .error ["Expected boolean"]

/-- A native `Date` value (`z.date()`): date-typed strings are rejected,
so an invalid-date string is a validation failure. -/
def ruleDate (v : JValue) : Except (List String) JValue :=
  match v with
  | .jdate t => .ok (.jdate t)
  | _ => .error ["Expected date"]

/-- A native `Date` value or `null` (nullable timestamps). -/
def ruleDateOrNull (v : JValue) : Except (List String) JValue :=
  match v with
  | .jdate t => .ok (.jdate t)
  | .jnull => .ok .jnull
  | _ => .error ["Expected date or null"]

/-- A string or `null` (nullable free-text fields). -/
def ruleStrOrNull (v : JValue) : Except (List String) JValue :=
  match v with
  | .jstr s => .ok (.jstr s)
  | .jnull => .ok .jnull
  | _ => .error ["Expected string or null"]

/-- Closed-set membership, exact match: "unrecognized values are
rejected, not silently coerced" (§3). -/
def ruleEnum (ms : List String) (v : JValue) : Except (List String) JValue :=
  match v with
  | .jstr s =>
    if ms.contains s then .ok (.jstr s)
    else .error ["Invalid enum value"]
  | _ => .error ["Expected string"]

/-- Modelled from the spec: case-insensitive enum acceptance (§8,
"Enum case normalization"): the input is upper-cased, then
membership-checked, and the canonical upper-case member is returned. -/
def ruleEnumCI (ms : List String) (v : JValue) : Except (List String) JValue :=
  match v with
  | .jstr s =>
    if ms.contains (upperStr s) then .ok (.jstr (upperStr s))
    else .error ["Invalid enum value"]
  | _ => .error ["Expected string"]

/-- Modelled from the spec: boolean-from-string coercion (§4.1):
"accepts a boolean, or the literal strings `true`/`false`
(case-sensitive), mapping to the boolean; any other string yields an
undefined/invalid result". -/
def boolFromString (v : JValue) : Option Bool :=
  match v with
  | .jbool b => some b
  | .jstr s =>
    if s = "true" then some true
    else if s = "false" then some false
    else none
  | _ => none

/-! ## Delimited-list coercion (`src/dto/global`) -/

/-- Extract the strings of an all-string array. -/
def allStrings : List JValue → Option (List String)
  | [] => some []
  | .jstr s :: rest => (allStrings rest).map (fun ss => s :: ss)
  | _ :: _ => none

/-- Modelled from the spec: `parseQueryArray` (§4.1, pinned by
`src/unnamed/part_001`): accepts nothing, a native list of strings, or a
single comma-separated string; a string is split on commas, each segment
is trimmed, empty segments are dropped; a native list passes through. -/
def parseQueryArray : Option (String ⊕ List String) → List String
  | none => []
  | some (.inr xs) => xs
  | some (.inl s) =>
    (((splitCommasL s.data).map trimL).filter (fun l => !l.isEmpty)).map
      (fun l => (⟨l⟩ : String))

/-- Modelled from the spec: `arrayQueryParamSchema`
(`src/unnamed/part_001`): the schema union of a string-array and a
comma-separated string, normalizing to a list of strings. -/
def arrayQueryParamSchema (v : JValue) : Except (List String) (List String) :=
  match v with
  | .jarr xs =>
    match allStrings xs with
    | some ss => .ok ss
    | none => .error ["Expected array of strings"]
  | .jstr s => .ok (parseQueryArray (some (.inl s)))
  | _ => .error ["Expected string or array of strings"]

/-- The segments of a list-or-delimited-string field: a native array
contributes its strings as segments, a string is split on commas. -/
def listSegs (v : JValue) : Except (List String) (List (List Char)) :=
  match v with
  | .jarr xs =>
    match allStrings xs with
    | some ss => .ok (ss.map String.data)
    | none => .error ["Expected array of strings"]
  | .jstr s => .ok (splitCommasL s.data)
  | _ => .error ["Expected string or array of strings"]

/-- Modelled from the spec: a list-coercing field (§3: "accept either a
native list or a single delimited string and normalize to a canonical
list with consistent casing"); `cas` is the field's canonical casing
(title case for ingredients). -/
def ruleListNorm (cas : List Char → List Char) (v : JValue) :
    Except (List String) JValue :=
  match listSegs v with
  | .error es => .error es
  | .ok segs =>
    .ok (.jarr ((normalizeSegs cas segs).map (fun l => .jstr ⟨l⟩)))

/-- Modelled from the spec: an enum-backed list field (§4.1: delimited
lists "upper-case each segment before membership-checking against the
enum"). -/
def ruleEnumList (ms : List String) (v : JValue) :
    Except (List String) JValue :=
  match listSegs v with
  | .error es => .error es
  | .ok segs =>
    let norm := (normalizeSegs upperL segs).map (fun l => (⟨l⟩ : String))
    if norm.all (fun s => ms.contains s) then
      .ok (.jarr (norm.map .jstr))
    else .error ["Invalid enum value in list"]

/-! ## Field wrappers -/

/-- A required field: absence is an error. -/
def requiredF (n : String) (r : JValue → Except (List String) JValue) :
    Field :=
  ⟨n, fun
    | none => .error ["Required"]
    | some v => (r v).map some⟩

/-- An optional field: absence stays absent from the output. -/
def optionalF (n : String) (r : JValue → Except (List String) JValue) :
    Field :=
  ⟨n, fun
    | none => .ok none
    | some v => (r v).map some⟩

/-- An optional field with a default substituted during parse (§4.2:
"absent optional fields receive entity-specific defaults"). -/
def defaultF (n : String) (d : JValue)
    (r : JValue → Except (List String) JValue) : Field :=
  ⟨n, fun
    | none => .ok (some d)
    | some v => (r v).map some⟩

/-- A query-parameter boolean field: a non-boolean-shaped string is an
undefined result, which this owning schema default-substitutes to the
absent field rather than failing (§4.1 failure-policy context). -/
def boolParamField (n : String) : Field :=
  ⟨n, fun
    | none => .ok none
    | some v => .ok ((boolFromString v).map JValue.jbool)⟩

/-! ## Cross-field refinements -/

/-- Modelled from the spec: the update-schema refinement ("update
payload must contain at least one key", §4.2/§8). -/
def atLeastOneField (out : List (String × JValue)) : List FieldError :=
  if out.isEmpty then [("", "At least one field must be provided")]
  else []

/-- The item groups stored under a key of the normalized output. -/
def groupsOf (out : List (String × JValue)) (k : String) : List JValue :=
  match lookupField out k with
  | some (.jarr xs) => xs
  | _ => []

/-- Modelled from the spec: the order-payload refinement pinned by the
`OrderCreateSchema`/`OrderUpdateItemsSchema` tests
(`src/PRISMA_DTO_USAGE.md`): the food and drink item-group lists may not
both be empty. -/
def itemsPresent (out : List (String × JValue)) : List FieldError :=
  if (groupsOf out "foodItems").isEmpty && (groupsOf out "drinkItems").isEmpty
  then [("", "Order must contain at least one food or drink item")]
  else []

/-! ## Payment schemas (`src/dto/payment.dto`) -/

/-- Modelled from the spec: the Payment entity fields (§3): identity,
amount plus tax/tip/serviceCharge "each non-negative, defaulting to
zero", payment method (case-normalized enum, pinned by the string-input
test), status enum, order reference, created/completed timestamps. -/
def paymentFields : List Field :=
  [requiredF "id" rulePosInt,
   requiredF "amount" ruleNonneg,
   defaultF "tax" (jnum 0) ruleNonneg,
   defaultF "tip" (jnum 0) ruleNonneg,
   defaultF "serviceCharge" (jnum 0) ruleNonneg,
   requiredF "paymentType" (ruleEnumCI paymentMethods),
   requiredF "createdAt" ruleDate,
   requiredF "completedAt" ruleDate,
   requiredF "orderId" rulePosInt,
   requiredF "status" (ruleEnum paymentStates)]

/-- `PaymentSchema.parse`. -/
def PaymentSchema.parse : JValue → Except (List FieldError) JValue :=
  parseObj paymentFields

/-! ## Table schemas (`src/dto/tables.dto`) -/

/-- Modelled from the spec: `TableSearchCriteriaSchema` fields — a small
set of optional filter predicates merged with the shared
pagination/sort fragment ("page ≥ 1 default 1; pageSize bounded,
e.g. 1–100, default 10; sortBy restricted to a per-entity enumerated
set of sortable columns; sortOrder restricted to asc/desc, default
asc", §4.3). -/
def tableSearchFields : List Field :=
  [optionalF "tableNumber" ruleCoercePosInt,
   optionalF "minCapacity" ruleCoerceNonnegInt,
   optionalF "maxCapacity" ruleCoerceNonnegInt,
   boolParamField "isOccupied",
   optionalF "status" (ruleEnum tableConditions),
   defaultF "page" (jnum 1) ruleCoercePosInt,
   defaultF "pageSize" (jnum 10) (ruleIntRange 1 100),
   defaultF "sortBy" (jstr "id") (ruleEnum tableSortOptions),
   defaultF "sortOrder" (jstr "asc") (ruleEnum sortOrders)]

/-- `TableSearchCriteriaSchema.parse`. -/
def TableSearchCriteriaSchema.parse : JValue → Except (List FieldError) JValue :=
  parseObj tableSearchFields

/-! ## Menu-item schemas (`src/dto/items.dto`) -/

/-- Modelled from the spec: the shared base item shape (§3: "identity,
name, description, price, ingredient list"; ingredients accept a list
or a comma-separated string and normalize to title case, pinned by the
`baseItemSchema` tests in `src/unnamed/part_000`). -/
def baseItemFields : List Field :=
  [requiredF "id" rulePosInt,
   requiredF "name" ruleNonemptyStr,
   requiredF "description" ruleStr,
   requiredF "price" ruleNonneg,
   defaultF "isAvailable" (jbool true) ruleBoolStrict,
   requiredF "ingredients" (ruleListNorm titleL)]

/-- `baseItemSchema.parse`. -/
def baseItemSchema.parse : JValue → Except (List FieldError) JValue :=
  parseObj baseItemFields

/-- Modelled from the spec: the FoodItem fields (§3: base shape plus
category, type, dietary flags, allergy set, spice level, preparation
time, calories), with the defaults the `src/unnamed/part_000` default
test pins (dietary flags false, allergies empty, preparationTime 0,
spicyLevel NOT_SPICY). -/
def foodItemFields : List Field :=
  [requiredF "id" rulePosInt,
   requiredF "name" ruleNonemptyStr,
   requiredF "description" ruleStr,
   requiredF "price" ruleNonneg,
   defaultF "isAvailable" (jbool true) ruleBoolStrict,
   requiredF "category" (ruleEnum foodCategories),
   requiredF "type" (ruleEnum foodTypes),
   defaultF "isVegan" (jbool false) ruleBoolStrict,
   defaultF "isGlutenFree" (jbool false) ruleBoolStrict,
   defaultF "isVegetarian" (jbool false) ruleBoolStrict,
   defaultF "allergies" (jarr []) (ruleEnumList allergyValues),
   defaultF "preparationTime" (jnum 0) ruleNonneg,
   defaultF "spicyLevel" (jstr "NOT_SPICY") (ruleEnum spiceLevels),
   optionalF "calories" ruleNonneg,
   requiredF "ingredients" (ruleListNorm titleL)]

/-- `foodItemSchema.parse`. -/
def foodItemSchema.parse : JValue → Except (List FieldError) JValue :=
  parseObj foodItemFields

/-! ## User schemas (`src/dto/user.dto`) -/

/-- Modelled from the spec: the `UpdateUserSchema` fields — the user
fields minus identity/audit fields, every remaining field optional
(§4.3, Update variant). -/
def updateUserFields : List Field :=
  [optionalF "name" ruleNonemptyStr,
   optionalF "email" ruleEmail,
   optionalF "role" (ruleEnum userRoles),
   optionalF "isActive" ruleBoolStrict,
   optionalF "password" ruleStr]

/-- `UpdateUserSchema.parse`: the update variant carries the
"at least one field present" refinement (§4.3). -/
def UpdateUserSchema.parse : JValue → Except (List FieldError) JValue :=
  parseObjWith updateUserFields atLeastOneField

/-- Modelled from the spec: the `UserParamSchema` search fields pinned
by the user-search tests: optional id filter, name, case-insensitively
normalized role, and a boolean-from-string active flag. -/
def userParamFields : List Field :=
  [optionalF "id" ruleCoercePosInt,
   optionalF "name" ruleStr,
   optionalF "role" (ruleEnumCI userRoles),
   boolParamField "isActive"]

/-- `UserParamSchema.parse`. -/
def UserParamSchema.parse : JValue → Except (List FieldError) JValue :=
  parseObj userParamFields

/-! ## Order schemas (`src/dto/orders.dto`) -/

/-- Modelled from the spec: the Order entity fields (§3): identity,
table reference, order number, guest count, server reference, status
enum, timestamps (nullable completion), non-negative total amount,
optional comments; the id/reference fields coerce numeric strings
(pinned by the `OrderSchema` tests). -/
def orderFields : List Field :=
  [requiredF "id" ruleCoercePosInt,
   requiredF "tableNumber" ruleCoercePosInt,
   requiredF "orderNumber" ruleCoercePosInt,
   requiredF "guestsCount" ruleCoercePosInt,
   requiredF "serverId" ruleCoercePosInt,
   requiredF "status" (ruleEnum orderStates),
   requiredF "orderTime" ruleDate,
   requiredF "updatedAt" ruleDate,
   optionalF "completionTime" ruleDateOrNull,
   requiredF "totalAmount" ruleNonneg,
   optionalF "comments" ruleStr]

/-- `OrderSchema.parse`. -/
def OrderSchema.parse : JValue → Except (List FieldError) JValue :=
  parseObj orderFields

/-- Modelled from the spec: `OrderUpdateProps` — the order's mutable
fields made optional (§4.3, Update variant). -/
def orderUpdateFields : List Field :=
  [optionalF "tableNumber" ruleCoercePosInt,
   optionalF "guestsCount" ruleCoercePosInt,
   optionalF "serverId" ruleCoercePosInt,
   optionalF "status" (ruleEnum orderStates),
   optionalF "totalAmount" ruleNonneg,
   optionalF "comments" ruleStr]

/-- `OrderUpdateProps.parse`: carries the "at least one field present"
refinement (§4.3). -/
def OrderUpdateProps.parse : JValue → Except (List FieldError) JValue :=
  parseObjWith orderUpdateFields atLeastOneField

/-- Modelled from the spec: `OrderSearchSchema` — optional filter
predicates (table, server, status, allergies as an enum-backed
delimited list) merged with the shared pagination/sort fragment
(§4.3; the allergies coercion is pinned by the `OrderSearchSchema`
tests in `src/PRISMA_DTO_USAGE.md`). -/
def orderSearchFields : List Field :=
  [optionalF "tableNumber" ruleCoercePosInt,
   optionalF "serverId" ruleCoercePosInt,
   optionalF "status" (ruleEnum orderStates),
   optionalF "allergies" (ruleEnumList allergyValues),
   defaultF "page" (jnum 1) ruleCoercePosInt,
   defaultF "pageSize" (jnum 10) (ruleIntRange 1 100),
   defaultF "sortBy" (jstr "id") (ruleEnum orderSortOptions),
   defaultF "sortOrder" (jstr "asc") (ruleEnum sortOrders)]

/-- `OrderSearchSchema.parse`. -/
def OrderSearchSchema.parse : JValue → Except (List FieldError) JValue :=
  parseObj orderSearchFields

/-- An array whose elements each satisfy a nested object schema; inner
errors are flattened to their messages. -/
def ruleArrayObjects (fs : List Field) (v : JValue) :
    Except (List String) JValue :=
  match v with
  | .jarr xs =>
    let rs := xs.map (parseObjWith fs (fun _ => []))
    let errs := rs.foldr
      (fun r acc =>
        match r with
        | .error es => es.map Prod.snd ++ acc
        | .ok _ => acc)
      []
    if errs.isEmpty then
      .ok (.jarr (rs.foldr
        (fun r acc =>
          match r with
          | .ok w => w :: acc
          | _ => acc)
        []))
    else .error errs
  | _ => .error ["Expected array"]

/-- Modelled from the spec: one item inside a per-guest item group of an
order create/update payload (pinned by the `OrderCreateSchema` test
payloads in `src/PRISMA_DTO_USAGE.md`). -/
def orderItemBriefFields : List Field :=
  [requiredF "itemId" ruleCoercePosInt,
   requiredF "price" ruleNonneg,
   optionalF "specialRequest" ruleStrOrNull]

/-- Modelled from the spec: a per-guest item group (guest number plus
the guest's items). -/
def guestGroupFields : List Field :=
  [requiredF "guestNumber" ruleCoercePosInt,
   requiredF "items" (ruleArrayObjects orderItemBriefFields)]

/-- Modelled from the spec: `OrderCreateSchema` fields — the create
variant without identity/audit fields (§4.3) plus the food/drink item
groups, both defaulting to empty lists. -/
def orderCreateFields : List Field :=
  [requiredF "tableNumber" ruleCoercePosInt,
   requiredF "guestsCount" ruleCoercePosInt,
   requiredF "serverId" ruleCoercePosInt,
   defaultF "foodItems" (jarr []) (ruleArrayObjects guestGroupFields),
   defaultF "drinkItems" (jarr []) (ruleArrayObjects guestGroupFields)]

/-- `OrderCreateSchema.parse`: refined so the payload holds at least
one item group. -/
def OrderCreateSchema.parse : JValue → Except (List FieldError) JValue :=
  parseObjWith orderCreateFields itemsPresent

/-- Modelled from the spec: `OrderUpdateItemsSchema` fields — only the
food/drink item-group lists, both defaulting to empty. -/
def orderUpdateItemsFields : List Field :=
  [defaultF "foodItems" (jarr []) (ruleArrayObjects guestGroupFields),
   defaultF "drinkItems" (jarr []) (ruleArrayObjects guestGroupFields)]

/-- `OrderUpdateItemsSchema.parse`: same at-least-one-item
refinement. -/
def OrderUpdateItemsSchema.parse : JValue → Except (List FieldError) JValue :=
  parseObjWith orderUpdateItemsFields itemsPresent

/-! ## Concrete boundary inputs (from the in-repo tests and docs) -/

/-- The minimal valid payment of the defaults test
(`src/tests/payment.test.ts`), with the payment type supplied as a
string. -/
def minimalPaymentInput : JValue :=
  jobj [("id", jnum 1), ("amount", jnum 50), ("paymentType", jstr "CASH"),
        ("createdAt", jdate 0), ("completedAt", jdate 0),
        ("orderId", jnum 1), ("status", jstr "PENDING")]

/-- The normalized payment produced from `minimalPaymentInput`:
tax, tip and serviceCharge defaulted to zero. -/
def normalizedPayment : JValue :=
  jobj [("id", jnum 1), ("amount", jnum 50), ("tax", jnum 0),
        ("tip", jnum 0), ("serviceCharge", jnum 0),
        ("paymentType", jstr "CASH"), ("createdAt", jdate 0),
        ("completedAt", jdate 0), ("orderId", jnum 1),
        ("status", jstr "PENDING")]

/-- A payment input valid in every field except that its amount is the
given number (`src/tests/payment.test.ts`, negative-amount test). -/
def paymentWithAmount (q : ℚ) : JValue :=
  jobj [("id", jnum 1), ("amount", jnum q), ("tax", jnum 5),
        ("tip", jnum 7), ("serviceCharge", jnum 2),
        ("paymentType", jstr "CREDIT_CARD"), ("createdAt", jdate 0),
        ("completedAt", jdate 0), ("orderId", jnum 1),
        ("status", jstr "PAID")]

/-- A payment input in which both the amount and the tax are negative
while every other field is valid. -/
def doublyInvalidPayment : JValue :=
  jobj [("id", jnum 1), ("amount", jnum (-50)), ("tax", jnum (-1)),
        ("tip", jnum 7), ("serviceCharge", jnum 2),
        ("paymentType", jstr "CREDIT_CARD"), ("createdAt", jdate 0),
        ("completedAt", jdate 0), ("orderId", jnum 1),
        ("status", jstr "PAID")]

/-- An order input valid in every field except that its total amount is
the given number (`src/PRISMA_DTO_USAGE.md`, rejected at −46). -/
def orderWithTotal (q : ℚ) : JValue :=
  jobj [("id", jstr "1"), ("tableNumber", jstr "5"),
        ("orderNumber", jstr "103"), ("guestsCount", jstr "2"),
        ("serverId", jstr "10"), ("status", jstr "RECEIVED"),
        ("orderTime", jdate 0), ("updatedAt", jdate 0),
        ("totalAmount", jnum q)]

/-- The minimal food item of the defaults test
(`src/unnamed/part_000`). -/
def minimalFoodInput : JValue :=
  jobj [("id", jnum 1), ("name", jstr "Simple Dish"),
        ("description", jstr "Basic dish"), ("price", jnum 10),
        ("isAvailable", jbool true), ("category", jstr "SOUP"),
        ("type", jstr "APPETIZER"),
        ("ingredients", jarr [jstr "Ingredients"])]

/-- The normalized food item produced from `minimalFoodInput`: dietary
flags false, allergies empty, preparation time 0, spice level
NOT_SPICY. -/
def normalizedFood : JValue :=
  jobj [("id", jnum 1), ("name", jstr "Simple Dish"),
        ("description", jstr "Basic dish"), ("price", jnum 10),
        ("isAvailable", jbool true), ("category", jstr "SOUP"),
        ("type", jstr "APPETIZER"), ("isVegan", jbool false),
        ("isGlutenFree", jbool false), ("isVegetarian", jbool false),
        ("allergies", jarr []), ("preparationTime", jnum 0),
        ("spicyLevel", jstr "NOT_SPICY"),
        ("ingredients", jarr [jstr "Ingredients"])]

/-- An order-create payload whose item-group lists are both empty
(`src/PRISMA_DTO_USAGE.md`, rejected). -/
def orderCreateNoItems (tn gc sid : ℚ) : JValue :=
  jobj [("tableNumber", jnum tn), ("guestsCount", jnum gc),
        ("serverId", jnum sid), ("foodItems", jarr []),
        ("drinkItems", jarr [])]

/-- A per-guest item group with one item
(`src/PRISMA_DTO_USAGE.md`, accepted). -/
def oneItemGroup : JValue :=
  jobj [("guestNumber", jnum 1),
        ("items", jarr [jobj [("price", jnum 1), ("itemId", jnum 1),
                              ("specialRequest", jnull)]])]

/-- The normalized form of `oneItemGroup` (schema field order). -/
def oneItemGroupNorm : JValue :=
  jobj [("guestNumber", jnum 1),
        ("items", jarr [jobj [("itemId", jnum 1), ("price", jnum 1),
                              ("specialRequest", jnull)]])]

/-- Two allergy tokens with whitespace padding, as (left padding,
token, right padding) triples: a concrete input for the list-coercion
round trip. -/
def c5Tokens : List (List Char × List Char × List Char) :=
  [(" ".data, "gluten".data, "".data),
   ("".data, "dairy".data, "  ".data)]

/-! ## Rule-level properties -/

/-- A rule only fails with at least one message (the failure policy:
errors carry "a human-readable message", §4.1). -/
def RuleNoSilent (f : Field) : Prop :=
  ∀ i es, f.rule i = .error es → es ≠ []

/-- A rule accepts its own normalized output unchanged. -/
def RuleIdem (f : Field) : Prop :=
  ∀ i r, f.rule i = .ok r → f.rule r = .ok r

/-- A value rule accepts its own normalized output unchanged. -/
def BaseIdem (r : JValue → Except (List String) JValue) : Prop :=
  ∀ v w, r v = .ok w → r w = .ok w

/-- A value rule only fails with at least one message. -/
def BaseNoSilent (r : JValue → Except (List String) JValue) : Prop :=
  ∀ v es, r v = .error es → es ≠ []

/-! ## Engine lemmas -/

theorem runFields_cons (f : Field) (fs : List Field)
    (o : List (String × JValue)) :
    runFields (f :: fs) o =
      (f.name, f.rule (lookupField o f.name)) :: runFields fs o := rfl

theorem collectErrs_cons_ok (n : String) (r : Option JValue)
    (rs : List (String × Except (List String) (Option JValue))) :
    collectErrs ((n, .ok r) :: rs) = collectErrs rs := rfl

theorem collectErrs_cons_error (n : String) (es : List String)
    (rs : List (String × Except (List String) (Option JValue))) :
    collectErrs ((n, .error es) :: rs) =
      es.map (fun e => (n, e)) ++ collectErrs rs := rfl

theorem collectOut_cons_some (n : String) (v : JValue)
    (rs : List (String × Except (List String) (Option JValue))) :
    collectOut ((n, .ok (some v)) :: rs) = (n, v) :: collectOut rs := rfl

theorem collectOut_cons_none (n : String)
    (rs : List (String × Except (List String) (Option JValue))) :
    collectOut ((n, .ok none) :: rs) = collectOut rs := rfl

theorem collectOut_cons_error (n : String) (es : List String)
    (rs : List (String × Except (List String) (Option JValue))) :
    collectOut ((n, .error es) :: rs) = collectOut rs := rfl

/-- When the aggregate error list is empty, every field rule in fact
succeeded (no error can hide, given rules never fail silently). -/
theorem fields_ok_of_no_errs :
    ∀ (fs : List Field) (o : List (String × JValue)),
      (∀ f ∈ fs, RuleNoSilent f) →
      collectErrs (runFields fs o) = [] →
      ∀ f ∈ fs, ∃ r, f.rule (lookupField o f.name) = .ok r := by
  intro fs
  induction fs with
  | nil => intro o _ _ f hf; exact absurd hf (List.not_mem_nil f)
  | cons g gs ih =>
    intro o hns h f hf
    rw [runFields_cons] at h
    cases hr : g.rule (lookupField o g.name) with
    | error es =>
      rw [hr, collectErrs_cons_error] at h
      have hes : es.map (fun e => (g.name, e)) = [] := List.append_eq_nil.mp h |>.1
      have : es = [] := List.map_eq_nil_iff.mp hes
      exact absurd this (hns g (List.mem_cons_self g gs) _ _ hr)
    | ok r =>
      rw [hr, collectErrs_cons_ok] at h
      rcases List.mem_cons.mp hf with heq | hf
      · subst heq; exact ⟨r, hr⟩
      · exact ih o (fun f' hf' => hns f' (List.mem_cons_of_mem g hf')) h f hf

/-- A key outside the schema's field names is absent from the
normalized output. -/
theorem lookup_collectOut_none :
    ∀ (fs : List Field) (o : List (String × JValue)) (k : String),
      k ∉ fs.map Field.name →
      lookupField (collectOut (runFields fs o)) k = none := by
  intro fs
  induction fs with
  | nil => intro o k _; rfl
  | cons g gs ih =>
    intro o k hk
    have hkg : g.name ≠ k := fun h => hk (by simp [h])
    have hk' : k ∉ gs.map Field.name := fun h => hk (List.mem_cons_of_mem _ h)
    rw [runFields_cons]
    cases hr : g.rule (lookupField o g.name) with
    | error es => rw [collectOut_cons_error]; exact ih o k hk'
    | ok r =>
      cases r with
      | none => rw [collectOut_cons_none]; exact ih o k hk'
      | some v =>
        rw [collectOut_cons_some]
        simp only [lookupField, if_neg hkg]
        exact ih o k hk'

/-- With distinct field names, looking a field up in the normalized
output returns exactly that field's own rule result. -/
theorem lookup_collectOut :
    ∀ (fs : List Field) (o : List (String × JValue)) (f : Field)
      (r : Option JValue),
      (fs.map Field.name).Nodup → f ∈ fs →
      f.rule (lookupField o f.name) = .ok r →
      lookupField (collectOut (runFields fs o)) f.name = r := by
  intro fs
  induction fs with
  | nil => intro o f r _ hf; exact absurd hf (List.not_mem_nil f)
  | cons g gs ih =>
    intro o f r hnd hf hr
    have hgn : g.name ∉ gs.map Field.name := (List.nodup_cons.mp hnd).1
    have hnd' : (gs.map Field.name).Nodup := (List.nodup_cons.mp hnd).2
    rw [runFields_cons]
    rcases List.mem_cons.mp hf with heq | hf
    · subst heq
      rw [hr]
      cases r with
      | some v => rw [collectOut_cons_some]; simp [lookupField]
      | none => rw [collectOut_cons_none]; exact lookup_collectOut_none gs o _ hgn
    · have hfn : f.name ∈ gs.map Field.name := List.mem_map_of_mem Field.name hf
      have hne : g.name ≠ f.name := fun h => hgn (h ▸ hfn)
      cases hg : g.rule (lookupField o g.name) with
      | error es => rw [collectOut_cons_error]; exact ih o f r hnd' hf hr
      | ok rg =>
        cases rg with
        | none => rw [collectOut_cons_none]; exact ih o f r hnd' hf hr
        | some v =>
          rw [collectOut_cons_some]
          simp only [lookupField, if_neg hne]
          exact ih o f r hnd' hf hr

/-- Re-running the rules on the normalized output reproduces the first
run exactly. -/
theorem runFields_reparse (fs : List Field) (o : List (String × JValue))
    (hnd : (fs.map Field.name).Nodup)
    (hok : ∀ f ∈ fs, RuleIdem f)
    (hns : ∀ f ∈ fs, RuleNoSilent f)
    (h : collectErrs (runFields fs o) = []) :
    runFields fs (collectOut (runFields fs o)) = runFields fs o := by
  apply List.map_congr_left
  intro f hf
  obtain ⟨r, hr⟩ := fields_ok_of_no_errs fs o hns h f hf
  have hl := lookup_collectOut fs o f r hnd hf hr
  rw [hl, hr, hok f hf _ r hr]

/-- Characterize a parse once every field rule has passed. -/
theorem parseObjWith_of_no_errs (fs : List Field)
    (refine : List (String × JValue) → List FieldError)
    (o : List (String × JValue))
    (h : collectErrs (runFields fs o) = []) :
    parseObjWith fs refine (jobj o) =
      match refine (collectOut (runFields fs o)) with
      | [] => .ok (jobj (collectOut (runFields fs o)))
      | es => .error es := by
  simp only [parseObjWith, h, List.isEmpty_nil, if_true]

/-- A parse that fails some field rule fails with the aggregate. -/
theorem parseObjWith_of_errs (fs : List Field)
    (refine : List (String × JValue) → List FieldError)
    (o : List (String × JValue))
    (h : collectErrs (runFields fs o) ≠ []) :
    parseObjWith fs refine (jobj o) =
      .error (collectErrs (runFields fs o)) := by
  simp only [parseObjWith]
  rw [if_neg (by simpa [List.isEmpty_iff] using h)]

/-- Every message of every failing field appears in the aggregate. -/
theorem mem_collectErrs :
    ∀ (fs : List Field) (o : List (String × JValue)) (f : Field)
      (es : List String) (e : String),
      f ∈ fs → f.rule (lookupField o f.name) = .error es → e ∈ es →
      (f.name, e) ∈ collectErrs (runFields fs o) := by
  intro fs
  induction fs with
  | nil => intro o f es e hf; exact absurd hf (List.not_mem_nil f)
  | cons g gs ih =>
    intro o f es e hf he hee
    rw [runFields_cons]
    rcases List.mem_cons.mp hf with heq | hf
    · subst heq
      rw [he, collectErrs_cons_error]
      exact List.mem_append_left _ (List.mem_map_of_mem _ hee)
    · cases hg : g.rule (lookupField o g.name) with
      | error es' =>
        rw [collectErrs_cons_error]
        exact List.mem_append_right _ (ih o f es e hf he hee)
      | ok r =>
        rw [collectErrs_cons_ok]
        exact ih o f es e hf he hee

/-- One parse call surfaces, in a single aggregate failure, an entry
for every message of every invalid field. -/
theorem parse_surfaces_error (fs : List Field)
    (refine : List (String × JValue) → List FieldError)
    (o : List (String × JValue)) (f : Field) (es : List String) (e : String)
    (hf : f ∈ fs) (he : f.rule (lookupField o f.name) = .error es)
    (hee : e ∈ es) :
    ∃ errs, parseObjWith fs refine (jobj o) = .error errs ∧
      (f.name, e) ∈ errs := by
  have hm := mem_collectErrs fs o f es e hf he hee
  exact ⟨_, parseObjWith_of_errs fs refine o
    (fun hnil => by rw [hnil] at hm; exact absurd hm (List.not_mem_nil _)), hm⟩

/-- When every field's rule returns "absent", both the aggregate error
list and the normalized output are empty. -/
theorem run_all_none :
    ∀ (fs : List Field) (o : List (String × JValue)),
      (∀ g ∈ fs, g.rule (lookupField o g.name) = .ok none) →
      collectErrs (runFields fs o) = [] ∧
        collectOut (runFields fs o) = [] := by
  intro fs
  induction fs with
  | nil => intro o _; exact ⟨rfl, rfl⟩
  | cons g gs ih =>
    intro o h
    rw [runFields_cons, h g (List.mem_cons_self g gs)]
    rw [collectErrs_cons_ok, collectOut_cons_none]
    exact ih o (fun g' hg' => h g' (List.mem_cons_of_mem g hg'))

/-- An all-optional schema with the non-emptiness refinement rejects
the empty object. -/
theorem parse_empty_fails (fs : List Field)
    (hopt : ∀ g ∈ fs, g.rule none = .ok none) :
    parseObjWith fs atLeastOneField (jobj []) =
      .error [("", "At least one field must be provided")] := by
  have h := run_all_none fs [] (fun g hg => hopt g hg)
  rw [parseObjWith_of_no_errs fs atLeastOneField [] h.1, h.2]
  rfl

/-- Re-parsing a successfully parsed value succeeds and leaves it
unchanged: the engine-level round-trip idempotence. -/
theorem parseObjWith_idem (fs : List Field)
    (refine : List (String × JValue) → List FieldError)
    (hnd : (fs.map Field.name).Nodup)
    (hok : ∀ f ∈ fs, RuleIdem f)
    (hns : ∀ f ∈ fs, RuleNoSilent f)
    (v w : JValue) (h : parseObjWith fs refine v = .ok w) :
    parseObjWith fs refine w = .ok w := by
  cases v with
  | jobj o =>
    by_cases he : collectErrs (runFields fs o) = []
    · rw [parseObjWith_of_no_errs fs refine o he] at h
      cases hrf : refine (collectOut (runFields fs o)) with
      | nil =>
        rw [hrf] at h
        have hw : w = jobj (collectOut (runFields fs o)) :=
          (Except.ok.injEq _ _ |>.mp h.symm)
        subst hw
        have hrun := runFields_reparse fs o hnd hok hns he
        have he' : collectErrs (runFields fs (collectOut (runFields fs o))) = [] := by
          rw [hrun]; exact he
        rw [parseObjWith_of_no_errs fs refine _ he', hrun, hrf]
      | cons e es => rw [hrf] at h; exact absurd h (by simp)
    · rw [parseObjWith_of_errs fs refine o he] at h
      exact absurd h (by simp)
  | jnull => exact absurd h (by simp [parseObjWith])
  | jbool b => exact absurd h (by simp [parseObjWith])
  | jnum q => exact absurd h (by simp [parseObjWith])
  | jstr s => exact absurd h (by simp [parseObjWith])
  | jdate t => exact absurd h (by simp [parseObjWith])
  | jarr xs => exact absurd h (by simp [parseObjWith])

/-- Fields outside the supplied single-key object all report "absent",
provided the key is not theirs. -/
theorem run_single_other :
    ∀ (fs : List Field) (k : String) (v : JValue),
      (∀ g ∈ fs, g.rule none = .ok none) →
      k ∉ fs.map Field.name →
      collectErrs (runFields fs [(k, v)]) = [] ∧
        collectOut (runFields fs [(k, v)]) = [] := by
  intro fs k v hopt hk
  apply run_all_none
  intro g hg
  have hgk : ¬ (k = g.name) := by
    intro h
    rw [h] at hk
    exact hk (List.mem_map_of_mem Field.name hg)
  have hl : lookupField [(k, v)] g.name = none := by
    simp [lookupField, hgk]
  rw [hl]
  exact hopt g hg

/-- An all-optional schema with the non-emptiness refinement accepts an
object holding any single valid field, normalizing just that field. -/
theorem parse_single_field :
    ∀ (fs : List Field) (f : Field) (v w : JValue),
      (fs.map Field.name).Nodup →
      (∀ g ∈ fs, g.rule none = .ok none) →
      f ∈ fs → f.rule (some v) = .ok (some w) →
      parseObjWith fs atLeastOneField (jobj [(f.name, v)]) =
        .ok (jobj [(f.name, w)]) := by
  have key : ∀ (fs : List Field) (f : Field) (v w : JValue),
      (fs.map Field.name).Nodup →
      (∀ g ∈ fs, g.rule none = .ok none) →
      f ∈ fs → f.rule (some v) = .ok (some w) →
      collectErrs (runFields fs [(f.name, v)]) = [] ∧
        collectOut (runFields fs [(f.name, v)]) = [(f.name, w)] := by
    intro fs
    induction fs with
    | nil => intro f v w _ _ hf; exact absurd hf (List.not_mem_nil f)
    | cons g gs ih =>
      intro f v w hnd hopt hf hr
      have hgn : g.name ∉ gs.map Field.name := (List.nodup_cons.mp hnd).1
      have hnd' : (gs.map Field.name).Nodup := (List.nodup_cons.mp hnd).2
      have hopt' : ∀ g' ∈ gs, g'.rule none = .ok none :=
        fun g' hg' => hopt g' (List.mem_cons_of_mem g hg')
      rw [runFields_cons]
      rcases List.mem_cons.mp hf with heq | hf
      · subst heq
        have hl : lookupField [(f.name, v)] f.name = some v := by
          simp [lookupField]
        rw [hl, hr, collectErrs_cons_ok, collectOut_cons_some]
        have hrest := run_single_other gs f.name v hopt' hgn
        exact ⟨hrest.1, by rw [hrest.2]⟩
      · have hfn : f.name ∈ gs.map Field.name := List.mem_map_of_mem Field.name hf
        have hne : ¬ (f.name = g.name) := by
          intro h
          rw [← h] at hgn
          exact hgn hfn
        have hl : lookupField [(f.name, v)] g.name = none := by
          simp [lookupField, hne]
        rw [hl, hopt g (List.mem_cons_self g gs)]
        rw [collectErrs_cons_ok, collectOut_cons_none]
        exact ih f v w hnd' hopt' hf hr
  intro fs f v w hnd hopt hf hr
  obtain ⟨h1, h2⟩ := key fs f v w hnd hopt hf hr
  rw [parseObjWith_of_no_errs fs atLeastOneField _ h1, h2]
  rfl

/-! ## String lemmas: split/join round trips and trimming -/

theorem ws_ne_comma (c : Char) (h : isWs c = true) : c ≠ ',' := by
  intro heq
  subst heq
  simp [isWs] at h

theorem splitCommasL_ne_nil : ∀ l : List Char, splitCommasL l ≠ [] := by
  intro l
  induction l with
  | nil => simp [splitCommasL]
  | cons c rest ih =>
    by_cases hc : c = ','
    · simp [splitCommasL, hc]
    · simp only [splitCommasL, if_neg hc]
      cases h : splitCommasL rest with
      | nil => exact absurd h ih
      | cons t ts => simp

/-- One unfolding step of `splitCommasL` at a non-comma character. -/
theorem splitCommasL_cons_ne (c : Char) (rest : List Char) (hc : c ≠ ',') :
    splitCommasL (c :: rest) =
      match splitCommasL rest with
      | [] => [[c]]
      | t :: ts => (c :: t) :: ts := by
  simp [splitCommasL, if_neg hc]

/-- Splitting a comma-free prefix followed by a comma peels the prefix
off as the first segment. -/
theorem splitCommasL_append_comma :
    ∀ (t l : List Char), ',' ∉ t →
      splitCommasL (t ++ ',' :: l) = t :: splitCommasL l := by
  intro t
  induction t with
  | nil => intro l _; simp [splitCommasL]
  | cons c t' ih =>
    intro l h
    have hc : c ≠ ',' := fun hc => h (hc ▸ List.mem_cons_self c t')
    have h' : ',' ∉ t' := fun hm => h (List.mem_cons_of_mem c hm)
    rw [List.cons_append, splitCommasL_cons_ne c _ hc, ih l h']

/-- A comma-free list is one whole segment. -/
theorem splitCommasL_no_comma :
    ∀ t : List Char, ',' ∉ t → splitCommasL t = [t] := by
  intro t
  induction t with
  | nil => intro _; rfl
  | cons c t' ih =>
    intro h
    have hc : c ≠ ',' := fun hc => h (hc ▸ List.mem_cons_self c t')
    have h' : ',' ∉ t' := fun hm => h (List.mem_cons_of_mem c hm)
    rw [splitCommasL_cons_ne c t' hc, ih h']

/-- Splitting undoes joining for a nonempty list of comma-free
segments. -/
theorem splitCommasL_joinCommas :
    ∀ parts : List (List Char), (∀ p ∈ parts, ',' ∉ p) → parts ≠ [] →
      splitCommasL (joinCommas parts) = parts := by
  intro parts
  induction parts with
  | nil => intro _ h; exact absurd rfl h
  | cons p rest ih =>
    intro h _
    have hp : ',' ∉ p := h p (List.mem_cons_self p rest)
    cases rest with
    | nil => exact splitCommasL_no_comma p hp
    | cons q rest' =>
      have hjoin : joinCommas (p :: q :: rest') = p ++ ',' :: joinCommas (q :: rest') := rfl
      rw [hjoin, splitCommasL_append_comma p _ hp,
        ih (fun p' hp' => h p' (List.mem_cons_of_mem p hp')) (by simp)]

theorem dropWhile_ws_append (a x : List Char)
    (h : ∀ c ∈ a, isWs c = true) :
    List.dropWhile isWs (a ++ x) = List.dropWhile isWs x := by
  induction a with
  | nil => rfl
  | cons c a' ih =>
    rw [List.cons_append, List.dropWhile_cons,
      if_pos (h c (List.mem_cons_self c a'))]
    exact ih (fun c' hc' => h c' (List.mem_cons_of_mem c hc'))

theorem dropWhile_ws_all (a : List Char) (h : ∀ c ∈ a, isWs c = true) :
    List.dropWhile isWs a = [] := by
  have := dropWhile_ws_append a [] h
  simpa using this

theorem dropWhile_append_of_ne_nil (p : Char → Bool) (l₁ l₂ : List Char)
    (h : List.dropWhile p l₁ ≠ []) :
    List.dropWhile p (l₁ ++ l₂) = List.dropWhile p l₁ ++ l₂ := by
  rw [List.dropWhile_append, if_neg (by simpa [List.isEmpty_iff] using h)]

/-- Trimming strips any whitespace padding placed around a token. -/
theorem trimL_pad (a t b : List Char)
    (ha : ∀ c ∈ a, isWs c = true) (hb : ∀ c ∈ b, isWs c = true) :
    trimL (a ++ t ++ b) = trimL t := by
  unfold trimL
  rw [List.append_assoc, dropWhile_ws_append a (t ++ b) ha]
  cases hu : List.dropWhile isWs t with
  | nil =>
    simp [List.dropWhile_append, hu, dropWhile_ws_all b hb]
  | cons u us =>
    have hne : List.dropWhile isWs t ≠ [] := by rw [hu]; simp
    rw [dropWhile_append_of_ne_nil isWs t b hne, hu, List.reverse_append,
      dropWhile_ws_append b.reverse (u :: us).reverse
        (fun c hc => hb c (List.mem_reverse.mp hc))]

theorem allStrings_map_jstr :
    ∀ ss : List String, allStrings (ss.map JValue.jstr) = some ss := by
  intro ss
  induction ss with
  | nil => rfl
  | cons s rest ih => simp [allStrings, ih]

/-- Whitespace padding around each token does not change the
normalized segment list. -/
theorem normalizeSegs_padded (cas : List Char → List Char)
    (l : List (List Char × List Char × List Char))
    (h : ∀ p ∈ l, (∀ c ∈ p.1, isWs c = true) ∧ (∀ c ∈ p.2.2, isWs c = true)) :
    normalizeSegs cas (l.map fun p => p.1 ++ p.2.1 ++ p.2.2) =
      normalizeSegs cas (l.map fun p => p.2.1) := by
  unfold normalizeSegs
  rw [List.map_map, List.map_map]
  have : l.map (trimL ∘ fun p => p.1 ++ p.2.1 ++ p.2.2) =
      l.map (trimL ∘ fun p => p.2.1) := by
    apply List.map_congr_left
    intro p hp
    exact trimL_pad p.1 p.2.1 p.2.2 (h p hp).1 (h p hp).2
  rw [this]

/-! ## Per-rule properties (idempotence, no silent failures) -/

theorem requiredF_idem (n : String) (r : JValue → Except (List String) JValue)
    (hr : BaseIdem r) : RuleIdem (requiredF n r) := by
  intro i o h
  cases i with
  | none => exact absurd h (by simp [requiredF])
  | some v =>
    simp only [requiredF] at h ⊢
    cases hv : r v with
    | error es => rw [hv] at h; exact absurd h (by simp [Except.map])
    | ok w =>
      rw [hv] at h
      simp only [Except.map] at h
      have : o = some w := by injection h with h'; exact h'.symm
      subst this
      show Except.map some (r w) = Except.ok (some w)
      rw [hr v w hv]
      rfl

theorem requiredF_nosilent (n : String)
    (r : JValue → Except (List String) JValue)
    (hr : BaseNoSilent r) : RuleNoSilent (requiredF n r) := by
  intro i es h
  cases i with
  | none =>
    simp only [requiredF] at h
    injection h with h'
    subst h'
    simp
  | some v =>
    simp only [requiredF] at h
    cases hv : r v with
    | error es' =>
      rw [hv] at h
      simp only [Except.map] at h
      injection h with h'
      subst h'
      exact hr v es' hv
    | ok w => rw [hv] at h; exact absurd h (by simp [Except.map])

theorem optionalF_idem (n : String) (r : JValue → Except (List String) JValue)
    (hr : BaseIdem r) : RuleIdem (optionalF n r) := by
  intro i o h
  cases i with
  | none =>
    simp only [optionalF] at h ⊢
    have : o = none := by injection h with h'; exact h'.symm
    subst this
    rfl
  | some v =>
    simp only [optionalF] at h ⊢
    cases hv : r v with
    | error es => rw [hv] at h; exact absurd h (by simp [Except.map])
    | ok w =>
      rw [hv] at h
      simp only [Except.map] at h
      have : o = some w := by injection h with h'; exact h'.symm
      subst this
      show Except.map some (r w) = Except.ok (some w)
      rw [hr v w hv]
      rfl

theorem optionalF_nosilent (n : String)
    (r : JValue → Except (List String) JValue)
    (hr : BaseNoSilent r) : RuleNoSilent (optionalF n r) := by
  intro i es h
  cases i with
  | none => exact absurd h (by simp [optionalF])
  | some v =>
    simp only [optionalF] at h
    cases hv : r v with
    | error es' =>
      rw [hv] at h
      simp only [Except.map] at h
      injection h with h'
      subst h'
      exact hr v es' hv
    | ok w => rw [hv] at h; exact absurd h (by simp [Except.map])

theorem defaultF_idem (n : String) (d : JValue)
    (r : JValue → Except (List String) JValue)
    (hr : BaseIdem r) (hd : r d = .ok d) : RuleIdem (defaultF n d r) := by
  intro i o h
  cases i with
  | none =>
    simp only [defaultF] at h ⊢
    have : o = some d := by injection h with h'; exact h'.symm
    subst this
    show Except.map some (r d) = Except.ok (some d)
    rw [hd]
    rfl
  | some v =>
    simp only [defaultF] at h ⊢
    cases hv : r v with
    | error es => rw [hv] at h; exact absurd h (by simp [Except.map])
    | ok w =>
      rw [hv] at h
      simp only [Except.map] at h
      have : o = some w := by injection h with h'; exact h'.symm
      subst this
      show Except.map some (r w) = Except.ok (some w)
      rw [hr v w hv]
      rfl

theorem defaultF_nosilent (n : String) (d : JValue)
    (r : JValue → Except (List String) JValue)
    (hr : BaseNoSilent r) : RuleNoSilent (defaultF n d r) := by
  intro i es h
  cases i with
  | none => exact absurd h (by simp [defaultF])
  | some v =>
    simp only [defaultF] at h
    cases hv : r v with
    | error es' =>
      rw [hv] at h
      simp only [Except.map] at h
      injection h with h'
      subst h'
      exact hr v es' hv
    | ok w => rw [hv] at h; exact absurd h (by simp [Except.map])

theorem ruleNonneg_idem : BaseIdem ruleNonneg := by
  intro v w h
  cases v <;> simp only [ruleNonneg] at h <;> try exact absurd h (by simp)
  next q =>
    split at h
    next hq =>
      injection h with h'
      subst h'
      simp [ruleNonneg, hq]
    next => exact absurd h (by simp)

theorem ruleNonneg_nosilent : BaseNoSilent ruleNonneg := by
  intro v es h
  cases v <;> simp only [ruleNonneg] at h <;>
    first
    | (injection h with h'; subst h'; simp)
    | skip
  next q =>
    split at h
    next => exact absurd h (by simp)
    next =>
      injection h with h'
      subst h'
      simp

theorem rulePosInt_idem : BaseIdem rulePosInt := by
  intro v w h
  cases v <;> simp only [rulePosInt] at h <;> try exact absurd h (by simp)
  next q =>
    split at h
    next hq =>
      injection h with h'
      subst h'
      simp [rulePosInt, hq]
    next => exact absurd h (by simp)

theorem rulePosInt_nosilent : BaseNoSilent rulePosInt := by
  intro v es h
  cases v <;> simp only [rulePosInt] at h <;>
    first
    | (injection h with h'; subst h'; simp)
    | skip
  next q =>
    split at h
    next => exact absurd h (by simp)
    next =>
      injection h with h'
      subst h'
      simp

theorem ruleEnum_idem (ms : List String) : BaseIdem (ruleEnum ms) := by
  intro v w h
  cases v
  case jstr s =>
    simp only [ruleEnum] at h
    split at h
    next hs =>
      injection h with h'
      subst h'
      simp only [ruleEnum]
      rw [if_pos hs]
    next => exact absurd h (by simp)
  all_goals simp [ruleEnum] at h

theorem ruleEnum_nosilent (ms : List String) : BaseNoSilent (ruleEnum ms) := by
  intro v es h
  cases v <;> simp only [ruleEnum] at h <;>
    first
    | (injection h with h'; subst h'; simp)
    | skip
  next s =>
    split at h
    next => exact absurd h (by simp)
    next =>
      injection h with h'
      subst h'
      simp

theorem ruleEnumCI_idem (ms : List String)
    (hm : ∀ m ∈ ms, upperStr m = m) : BaseIdem (ruleEnumCI ms) := by
  intro v w h
  cases v
  case jstr s =>
    simp only [ruleEnumCI] at h
    split at h
    next hs =>
      injection h with h'
      subst h'
      have hmem : upperStr s ∈ ms := by
        simpa using hs
      have hup : upperStr (upperStr s) = upperStr s := hm _ hmem
      simp only [ruleEnumCI]
      rw [hup, if_pos hs]
    next => exact absurd h (by simp)
  all_goals simp [ruleEnumCI] at h

theorem ruleEnumCI_nosilent (ms : List String) :
    BaseNoSilent (ruleEnumCI ms) := by
  intro v es h
  cases v <;> simp only [ruleEnumCI] at h <;>
    first
    | (injection h with h'; subst h'; simp)
    | skip
  next s =>
    split at h
    next => exact absurd h (by simp)
    next =>
      injection h with h'
      subst h'
      simp

theorem ruleDate_idem : BaseIdem ruleDate := by
  intro v w h
  cases v
  case jdate t =>
    simp only [ruleDate] at h
    injection h with h'
    subst h'
    rfl
  all_goals simp [ruleDate] at h

theorem ruleDate_nosilent : BaseNoSilent ruleDate := by
  intro v es h
  cases v
  case jdate t => exact absurd h (by simp [ruleDate])
  all_goals
    simp only [ruleDate] at h
    injection h with h'
    subst h'
    simp

theorem paymentMethods_upper : ∀ m ∈ paymentMethods, upperStr m = m := by
  decide

theorem paymentFields_nodup : (paymentFields.map Field.name).Nodup := by
  decide

theorem paymentFields_idem : ∀ f ∈ paymentFields, RuleIdem f := by
  intro f hf
  simp only [paymentFields, List.mem_cons, List.not_mem_nil, or_false] at hf
  rcases hf with rfl | rfl | rfl | rfl | rfl | rfl | rfl | rfl | rfl | rfl
  · exact requiredF_idem _ _ rulePosInt_idem
  · exact requiredF_idem _ _ ruleNonneg_idem
  · exact defaultF_idem _ _ _ ruleNonneg_idem (by rfl)
  · exact defaultF_idem _ _ _ ruleNonneg_idem (by rfl)
  · exact defaultF_idem _ _ _ ruleNonneg_idem (by rfl)
  · exact requiredF_idem _ _ (ruleEnumCI_idem _ paymentMethods_upper)
  · exact requiredF_idem _ _ ruleDate_idem
  · exact requiredF_idem _ _ ruleDate_idem
  · exact requiredF_idem _ _ rulePosInt_idem
  · exact requiredF_idem _ _ (ruleEnum_idem _)

theorem paymentFields_nosilent : ∀ f ∈ paymentFields, RuleNoSilent f := by
  intro f hf
  simp only [paymentFields, List.mem_cons, List.not_mem_nil, or_false] at hf
  rcases hf with rfl | rfl | rfl | rfl | rfl | rfl | rfl | rfl | rfl | rfl
  · exact requiredF_nosilent _ _ rulePosInt_nosilent
  · exact requiredF_nosilent _ _ ruleNonneg_nosilent
  · exact defaultF_nosilent _ _ _ ruleNonneg_nosilent
  · exact defaultF_nosilent _ _ _ ruleNonneg_nosilent
  · exact defaultF_nosilent _ _ _ ruleNonneg_nosilent
  · exact requiredF_nosilent _ _ (ruleEnumCI_nosilent _)
  · exact requiredF_nosilent _ _ ruleDate_nosilent
  · exact requiredF_nosilent _ _ ruleDate_nosilent
  · exact requiredF_nosilent _ _ rulePosInt_nosilent
  · exact requiredF_nosilent _ _ (ruleEnum_nosilent _)

theorem updateUserFields_nodup : (updateUserFields.map Field.name).Nodup := by
  decide

theorem updateUserFields_optional :
    ∀ g ∈ updateUserFields, g.rule none = .ok none := by
  intro g hg
  simp only [updateUserFields, List.mem_cons, List.not_mem_nil, or_false] at hg
  rcases hg with rfl | rfl | rfl | rfl | rfl <;> rfl

theorem orderUpdateFields_nodup : (orderUpdateFields.map Field.name).Nodup := by
  decide

theorem orderUpdateFields_optional :
    ∀ g ∈ orderUpdateFields, g.rule none = .ok none := by
  intro g hg
  simp only [orderUpdateFields, List.mem_cons, List.not_mem_nil, or_false] at hg
  rcases hg with rfl | rfl | rfl | rfl | rfl | rfl <;> rfl

/-- An integral positive number passes the coercing positive-integer
rule unchanged. -/
theorem ruleCoercePosInt_int (q : ℚ) (h1 : q.den = 1) (h2 : 0 < q) :
    ruleCoercePosInt (jnum q) = .ok (jnum q) := by
  simp only [ruleCoercePosInt, coerceNum]
  rw [if_pos ⟨h1, h2⟩]

/-- The two list-coercing representations yield equal rule results once
their normalized segments agree. -/
theorem ruleListNorm_congr (cas : List Char → List Char) (v₁ v₂ : JValue)
    (s₁ s₂ : List (List Char))
    (h₁ : listSegs v₁ = .ok s₁) (h₂ : listSegs v₂ = .ok s₂)
    (hn : normalizeSegs cas s₁ = normalizeSegs cas s₂) :
    ruleListNorm cas v₁ = ruleListNorm cas v₂ := by
  simp only [ruleListNorm, h₁, h₂, hn]

theorem ruleEnumList_congr (ms : List String) (v₁ v₂ : JValue)
    (s₁ s₂ : List (List Char))
    (h₁ : listSegs v₁ = .ok s₁) (h₂ : listSegs v₂ = .ok s₂)
    (hn : normalizeSegs upperL s₁ = normalizeSegs upperL s₂) :
    ruleEnumList ms v₁ = ruleEnumList ms v₂ := by
  simp only [ruleEnumList, h₁, h₂, hn]

/-- The segments of the native-array representation of a token list. -/
theorem listSegs_jarr (mids : List (List Char)) :
    listSegs (jarr (mids.map fun t => jstr ⟨t⟩)) = .ok mids := by
  have h : mids.map (fun t => jstr ⟨t⟩) =
      (mids.map fun t => (⟨t⟩ : String)).map JValue.jstr := by
    rw [List.map_map]
    exact List.map_congr_left (fun t _ => rfl)
  have hall : allStrings (mids.map fun t => jstr ⟨t⟩) =
      some (mids.map fun t => (⟨t⟩ : String)) := by
    rw [h]
    exact allStrings_map_jstr _
  have hid : (mids.map fun t => (⟨t⟩ : String)).map String.data = mids := by
    rw [List.map_map]
    have h2 : mids.map (String.data ∘ fun t => (⟨t⟩ : String)) = mids.map id :=
      List.map_congr_left (fun t _ => rfl)
    rw [h2, List.map_id]
  simp only [listSegs, hall, hid]

/-- Splitting the comma-join of whitespace-padded comma-free tokens and
normalizing gives the same segments as normalizing the bare tokens. -/
theorem split_join_norm (cas : List Char → List Char)
    (l : List (List Char × List Char × List Char))
    (h : ∀ p ∈ l, (∀ c ∈ p.1, isWs c = true) ∧
      (∀ c ∈ p.2.2, isWs c = true) ∧ ',' ∉ p.2.1) :
    normalizeSegs cas
        (splitCommasL (joinCommas (l.map fun p => p.1 ++ p.2.1 ++ p.2.2))) =
      normalizeSegs cas (l.map fun p => p.2.1) := by
  cases l with
  | nil => rfl
  | cons p rest =>
    have hsplit : splitCommasL
        (joinCommas ((p :: rest).map fun p => p.1 ++ p.2.1 ++ p.2.2)) =
        (p :: rest).map fun p => p.1 ++ p.2.1 ++ p.2.2 := by
      apply splitCommasL_joinCommas
      · intro part hpart
        rw [List.mem_map] at hpart
        obtain ⟨q, hq, rfl⟩ := hpart
        intro hc
        rcases List.mem_append.mp hc with hc' | hc'
        · rcases List.mem_append.mp hc' with hc'' | hc''
          · exact ws_ne_comma ',' ((h q hq).1 ',' hc'') rfl
          · exact (h q hq).2.2 hc''
        · exact ws_ne_comma ',' ((h q hq).2.1 ',' hc') rfl
      · simp
    rw [hsplit]
    exact normalizeSegs_padded cas (p :: rest)
      (fun q hq => ⟨(h q hq).1, (h q hq).2.1⟩)

/-! ## Claim theorems -/

/-- C1: parsing an input that omits every optional defaulted field
succeeds and defaults every optional field:
`TableSearchCriteriaSchema.parse {}` succeeds with page 1, pageSize 10,
sortBy "id", sortOrder "asc" (and so does `OrderSearchSchema.parse {}`);
`PaymentSchema` defaults tax, tip and serviceCharge to 0; and
`foodItemSchema` defaults isVegan/isGlutenFree/isVegetarian to false
and allergies to the empty list. -/
theorem claim_C1_default_completeness :
    TableSearchCriteriaSchema.parse (jobj []) =
      .ok (jobj [("page", jnum 1), ("pageSize", jnum 10),
                 ("sortBy", jstr "id"), ("sortOrder", jstr "asc")]) ∧
    OrderSearchSchema.parse (jobj []) =
      .ok (jobj [("page", jnum 1), ("pageSize", jnum 10),
                 ("sortBy", jstr "id"), ("sortOrder", jstr "asc")]) ∧
    PaymentSchema.parse minimalPaymentInput = .ok normalizedPayment ∧
    foodItemSchema.parse minimalFoodInput = .ok normalizedFood :=
  ⟨rfl, rfl, rfl, rfl⟩

/-- C2: every update-variant schema rejects the empty object, and
accepts an object holding any single valid field (stated for
`UpdateUserSchema` and `OrderUpdateProps`). -/
theorem claim_C2_update_nonempty :
    (UpdateUserSchema.parse (jobj []) =
      .error [("", "At least one field must be provided")]) ∧
    (OrderUpdateProps.parse (jobj []) =
      .error [("", "At least one field must be provided")]) ∧
    (∀ f v w, f ∈ updateUserFields → f.rule (some v) = .ok (some w) →
      UpdateUserSchema.parse (jobj [(f.name, v)]) =
        .ok (jobj [(f.name, w)])) ∧
    (∀ f v w, f ∈ orderUpdateFields → f.rule (some v) = .ok (some w) →
      OrderUpdateProps.parse (jobj [(f.name, v)]) =
        .ok (jobj [(f.name, w)])) := by
  refine ⟨?_, ?_, ?_, ?_⟩
  · exact parse_empty_fails updateUserFields updateUserFields_optional
  · exact parse_empty_fails orderUpdateFields orderUpdateFields_optional
  · intro f v w hf hr
    exact parse_single_field updateUserFields f v w updateUserFields_nodup
      updateUserFields_optional hf hr
  · intro f v w hf hr
    exact parse_single_field orderUpdateFields f v w orderUpdateFields_nodup
      orderUpdateFields_optional hf hr

/-- Witness for C2: a single-field name update passes
`UpdateUserSchema` and a single-field comments update passes
`OrderUpdateProps`, with the hypotheses discharged at those concrete
fields. -/
theorem claim_C2_update_nonempty_witness :
    (optionalF "name" ruleNonemptyStr ∈ updateUserFields ∧
      (optionalF "name" ruleNonemptyStr).rule (some (jstr "Updated Name")) =
        .ok (some (jstr "Updated Name"))) ∧
    UpdateUserSchema.parse (jobj [("name", jstr "Updated Name")]) =
      .ok (jobj [("name", jstr "Updated Name")]) ∧
    OrderUpdateProps.parse (jobj [("comments", jstr "Updated comment")]) =
      .ok (jobj [("comments", jstr "Updated comment")]) :=
  ⟨⟨by simp [updateUserFields], rfl⟩,
   claim_C2_update_nonempty.2.2.1 (optionalF "name" ruleNonemptyStr)
     (jstr "Updated Name") (jstr "Updated Name")
     (by simp [updateUserFields]) rfl,
   claim_C2_update_nonempty.2.2.2 (optionalF "comments" ruleStr)
     (jstr "Updated comment") (jstr "Updated comment")
     (by simp [orderUpdateFields]) rfl⟩

/-- C3: a negative value in a non-negative numeric field fails with a
constraint violation on that field and the parse never succeeds (so it
never clamps): stated for `PaymentSchema.amount` and
`OrderSchema.totalAmount`. -/
theorem claim_C3_negative_rejected (q q' : ℚ) (hq : q < 0) (hq' : q' < 0) :
    (∃ errs, PaymentSchema.parse (paymentWithAmount q) = .error errs ∧
      ("amount", "Number must be greater than or equal to 0") ∈ errs) ∧
    (∀ w, PaymentSchema.parse (paymentWithAmount q) ≠ .ok w) ∧
    (∃ errs, OrderSchema.parse (orderWithTotal q') = .error errs ∧
      ("totalAmount", "Number must be greater than or equal to 0") ∈ errs) ∧
    (∀ w, OrderSchema.parse (orderWithTotal q') ≠ .ok w) := by
  have hnq : ¬ (0 ≤ q) := not_le.mpr hq
  have hnq' : ¬ (0 ≤ q') := not_le.mpr hq'
  have hepay : (requiredF "amount" ruleNonneg).rule (some (jnum q)) =
      .error ["Number must be greater than or equal to 0"] := by
    show Except.map some (ruleNonneg (jnum q)) = _
    simp only [ruleNonneg]
    rw [if_neg hnq]
    rfl
  have heord : (requiredF "totalAmount" ruleNonneg).rule (some (jnum q')) =
      .error ["Number must be greater than or equal to 0"] := by
    show Except.map some (ruleNonneg (jnum q')) = _
    simp only [ruleNonneg]
    rw [if_neg hnq']
    rfl
  have hpay : ∃ errs,
      PaymentSchema.parse (paymentWithAmount q) = .error errs ∧
      ("amount", "Number must be greater than or equal to 0") ∈ errs :=
    parse_surfaces_error paymentFields (fun _ => [])
      [("id", jnum 1), ("amount", jnum q), ("tax", jnum 5), ("tip", jnum 7),
       ("serviceCharge", jnum 2), ("paymentType", jstr "CREDIT_CARD"),
       ("createdAt", jdate 0), ("completedAt", jdate 0),
       ("orderId", jnum 1), ("status", jstr "PAID")]
      (requiredF "amount" ruleNonneg) _ _
      (by simp [paymentFields]) hepay (List.mem_singleton_self _)
  have hord : ∃ errs,
      OrderSchema.parse (orderWithTotal q') = .error errs ∧
      ("totalAmount", "Number must be greater than or equal to 0") ∈ errs :=
    parse_surfaces_error orderFields (fun _ => [])
      [("id", jstr "1"), ("tableNumber", jstr "5"),
       ("orderNumber", jstr "103"), ("guestsCount", jstr "2"),
       ("serverId", jstr "10"), ("status", jstr "RECEIVED"),
       ("orderTime", jdate 0), ("updatedAt", jdate 0),
       ("totalAmount", jnum q')]
      (requiredF "totalAmount" ruleNonneg) _ _
      (by simp [orderFields]) heord (List.mem_singleton_self _)
  refine ⟨hpay, ?_, hord, ?_⟩
  · obtain ⟨errs, heq, _⟩ := hpay
    intro w hw
    rw [heq] at hw
    exact absurd hw (by simp)
  · obtain ⟨errs, heq, _⟩ := hord
    intro w hw
    rw [heq] at hw
    exact absurd hw (by simp)

/-- Witness for C3 at the tests' concrete inputs: amount −50 and
totalAmount −46. -/
theorem claim_C3_negative_rejected_witness :
    ((-50 : ℚ) < 0) ∧ ((-46 : ℚ) < 0) ∧
    (∃ errs, PaymentSchema.parse (paymentWithAmount (-50)) = .error errs ∧
      ("amount", "Number must be greater than or equal to 0") ∈ errs) ∧
    (∃ errs, OrderSchema.parse (orderWithTotal (-46)) = .error errs ∧
      ("totalAmount", "Number must be greater than or equal to 0") ∈ errs) :=
  ⟨by decide, by decide,
   (claim_C3_negative_rejected (-50) (-46) (by decide) (by decide)).1,
   (claim_C3_negative_rejected (-50) (-46) (by decide) (by decide)).2.2.1⟩

/-- C4: the delimited-list coercion accepts a native list of strings or
a single comma-separated string; a string is split on commas, trimmed
per segment and stripped of empty segments (so clean tokens round-trip
through a comma-join exactly), and the empty string yields the empty
list rather than an error. -/
theorem claim_C4_query_array :
    parseQueryArray none = [] ∧
    parseQueryArray (some (.inl "")) = [] ∧
    (∀ xs, parseQueryArray (some (.inr xs)) = xs) ∧
    parseQueryArray (some (.inl "a, ,b ,c,")) = ["a", "b", "c"] ∧
    (∀ toks : List String,
      (∀ t ∈ toks, t.data ≠ [] ∧ trimL t.data = t.data ∧ ',' ∉ t.data) →
      parseQueryArray (some (.inl ⟨joinCommas (toks.map String.data)⟩)) =
        toks) ∧
    arrayQueryParamSchema (jstr "") = .ok [] ∧
    (∀ xs, arrayQueryParamSchema (jarr (xs.map jstr)) = .ok xs) := by
  refine ⟨rfl, rfl, fun xs => rfl, rfl, ?_, rfl, ?_⟩
  · intro toks h
    cases toks with
    | nil => rfl
    | cons t ts =>
      have hsplit : splitCommasL (joinCommas ((t :: ts).map String.data)) =
          (t :: ts).map String.data := by
        apply splitCommasL_joinCommas
        · intro p hp
          rw [List.mem_map] at hp
          obtain ⟨u, hu, rfl⟩ := hp
          exact (h u hu).2.2
        · simp
      show (((splitCommasL
          (joinCommas ((t :: ts).map String.data))).map trimL).filter
          (fun l => !l.isEmpty)).map (fun l => (⟨l⟩ : String)) = t :: ts
      rw [hsplit]
      have htrim : ∀ p ∈ (t :: ts).map String.data, trimL p = id p := by
        intro p hp
        rw [List.mem_map] at hp
        obtain ⟨u, hu, rfl⟩ := hp
        exact (h u hu).2.1
      rw [(List.map_congr_left htrim).trans (List.map_id _)]
      have hne : ∀ p ∈ (t :: ts).map String.data, (!p.isEmpty) = true := by
        intro p hp
        rw [List.mem_map] at hp
        obtain ⟨u, hu, rfl⟩ := hp
        simpa [List.isEmpty_iff] using (h u hu).1
      rw [List.filter_eq_self.mpr hne, List.map_map]
      exact (List.map_congr_left (fun u _ => rfl)).trans (List.map_id _)
  · intro xs
    simp [arrayQueryParamSchema, allStrings_map_jstr]

/-- Witness for C4 at the clean token list `["a", "b"]`. -/
theorem claim_C4_query_array_witness :
    (∀ t ∈ ["a", "b"], t.data ≠ [] ∧ trimL t.data = t.data ∧
      ',' ∉ t.data) ∧
    parseQueryArray
        (some (.inl ⟨joinCommas (["a", "b"].map String.data)⟩)) =
      ["a", "b"] :=
  ⟨by decide, claim_C4_query_array.2.2.2.2.1 ["a", "b"] (by decide)⟩

/-- C5: for any token list, the native-list representation and the
comma-joined string representation (with arbitrary whitespace padding
per token) produce the identical normalized list, both through the
title-cased ingredients field of `baseItemSchema`/`foodItemSchema` and
through the enum-backed allergies field of `OrderSearchSchema`; the
final conjunct checks the schema-level equality at the tests' concrete
allergy input. -/
theorem claim_C5_list_coercion_commutes
    (l : List (List Char × List Char × List Char))
    (h : ∀ p ∈ l, (∀ c ∈ p.1, isWs c = true) ∧
      (∀ c ∈ p.2.2, isWs c = true) ∧ ',' ∉ p.2.1) :
    ruleListNorm titleL
        (jstr ⟨joinCommas (l.map fun p => p.1 ++ p.2.1 ++ p.2.2)⟩) =
      ruleListNorm titleL (jarr (l.map fun p => jstr ⟨p.2.1⟩)) ∧
    ruleEnumList allergyValues
        (jstr ⟨joinCommas (l.map fun p => p.1 ++ p.2.1 ++ p.2.2)⟩) =
      ruleEnumList allergyValues (jarr (l.map fun p => jstr ⟨p.2.1⟩)) ∧
    OrderSearchSchema.parse (jobj [("allergies", jstr "GLUTEN,DAIRY")]) =
      OrderSearchSchema.parse
        (jobj [("allergies", jarr [jstr "GLUTEN", jstr "DAIRY"])]) := by
  have hstr : listSegs
      (jstr ⟨joinCommas (l.map fun p => p.1 ++ p.2.1 ++ p.2.2)⟩) =
      .ok (splitCommasL (joinCommas (l.map fun p => p.1 ++ p.2.1 ++ p.2.2))) :=
    rfl
  have harr : listSegs (jarr (l.map fun p => jstr ⟨p.2.1⟩)) =
      .ok (l.map fun p => p.2.1) := by
    have hmm : l.map (fun p => jstr ⟨p.2.1⟩) =
        ((l.map fun p => p.2.1).map fun t => jstr ⟨t⟩) := by
      rw [List.map_map]
      exact List.map_congr_left (fun p _ => rfl)
    rw [hmm]
    exact listSegs_jarr _
  refine ⟨?_, ?_, rfl⟩
  · exact ruleListNorm_congr titleL _ _ _ _ hstr harr
      (split_join_norm titleL l h)
  · exact ruleEnumList_congr allergyValues _ _ _ _ hstr harr
      (split_join_norm upperL l h)

/-- Witness for C5 at two padded allergy tokens. -/
theorem claim_C5_list_coercion_commutes_witness :
    (∀ p ∈ c5Tokens, (∀ c ∈ p.1, isWs c = true) ∧
      (∀ c ∈ p.2.2, isWs c = true) ∧ ',' ∉ p.2.1) ∧
    ruleEnumList allergyValues
        (jstr ⟨joinCommas (c5Tokens.map fun p => p.1 ++ p.2.1 ++ p.2.2)⟩) =
      ruleEnumList allergyValues
        (jarr (c5Tokens.map fun p => jstr ⟨p.2.1⟩)) :=
  ⟨by decide,
   (claim_C5_list_coercion_commutes c5Tokens (by decide)).2.1⟩

/-- C6: the case-insensitive role field of `UserParamSchema` normalizes
a lower- or mixed-case member to the canonical upper-case member, and
rejects any string whose upper-casing lies outside the closed set. -/
theorem claim_C6_enum_case_normalization (s : String)
    (hs : userRoles.contains (upperStr s) = false) :
    UserParamSchema.parse (jobj [("id", jnum 1), ("role", jstr "admin")]) =
      .ok (jobj [("id", jnum 1), ("role", jstr "ADMIN")]) ∧
    UserParamSchema.parse (jobj [("id", jnum 1), ("role", jstr "AdMiN")]) =
      .ok (jobj [("id", jnum 1), ("role", jstr "ADMIN")]) ∧
    (∃ errs,
      UserParamSchema.parse (jobj [("id", jnum 1), ("role", jstr s)]) =
        .error errs ∧ ("role", "Invalid enum value") ∈ errs) := by
  refine ⟨rfl, rfl, ?_⟩
  have he : (optionalF "role" (ruleEnumCI userRoles)).rule (some (jstr s)) =
      .error ["Invalid enum value"] := by
    show Except.map some (ruleEnumCI userRoles (jstr s)) = _
    simp only [ruleEnumCI]
    rw [if_neg (by simpa using hs)]
    rfl
  exact parse_surfaces_error userParamFields (fun _ => [])
    [("id", jnum 1), ("role", jstr s)]
    (optionalF "role" (ruleEnumCI userRoles)) _ _
    (by simp [userParamFields]) he (List.mem_singleton_self _)

/-- Witness for C6 at the tests' rejected value `"INVALID_ROLE"`. -/
theorem claim_C6_enum_case_normalization_witness :
    userRoles.contains (upperStr "INVALID_ROLE") = false ∧
    (∃ errs,
      UserParamSchema.parse
          (jobj [("id", jnum 1), ("role", jstr "INVALID_ROLE")]) =
        .error errs ∧ ("role", "Invalid enum value") ∈ errs) :=
  ⟨by decide,
   (claim_C6_enum_case_normalization "INVALID_ROLE" (by decide)).2.2⟩

/-- C7: re-parsing a parsed result is idempotent: any value the
`PaymentSchema` parse produced parses again to itself unchanged. -/
theorem claim_C7_roundtrip_idempotent (v w : JValue)
    (h : PaymentSchema.parse v = .ok w) :
    PaymentSchema.parse w = .ok w :=
  parseObjWith_idem paymentFields (fun _ => []) paymentFields_nodup
    paymentFields_idem paymentFields_nosilent v w h

/-- Witness for C7 at the minimal payment input. -/
theorem claim_C7_roundtrip_idempotent_witness :
    PaymentSchema.parse minimalPaymentInput = .ok normalizedPayment ∧
    PaymentSchema.parse normalizedPayment = .ok normalizedPayment :=
  ⟨rfl,
   claim_C7_roundtrip_idempotent minimalPaymentInput normalizedPayment rfl⟩

/-- C8: the boolean-from-string coercion accepts a native boolean and
exactly the literal strings "true"/"false" (case-sensitive); any other
string yields the undefined result, which the owning `UserParamSchema`
treats as the field being absent rather than a failure. -/
theorem claim_C8_bool_from_string (s : String)
    (h1 : s ≠ "true") (h2 : s ≠ "false") :
    (∀ b, boolFromString (jbool b) = some b) ∧
    boolFromString (jstr "true") = some true ∧
    boolFromString (jstr "false") = some false ∧
    boolFromString (jstr s) = none ∧
    UserParamSchema.parse
        (jobj [("id", jnum 1), ("isActive", jstr "true")]) =
      .ok (jobj [("id", jnum 1), ("isActive", jbool true)]) ∧
    UserParamSchema.parse
        (jobj [("id", jnum 1), ("isActive", jbool false)]) =
      .ok (jobj [("id", jnum 1), ("isActive", jbool false)]) ∧
    UserParamSchema.parse (jobj [("id", jnum 1), ("isActive", jstr s)]) =
      .ok (jobj [("id", jnum 1)]) := by
  have hb : boolFromString (jstr s) = none := by
    simp only [boolFromString]
    rw [if_neg h1, if_neg h2]
  refine ⟨fun b => rfl, rfl, rfl, hb, rfl, rfl, ?_⟩
  have hnoerr : collectErrs (runFields userParamFields
      [("id", jnum 1), ("isActive", jstr s)]) = [] := rfl
  have hout : collectOut (runFields userParamFields
      [("id", jnum 1), ("isActive", jstr s)]) = [("id", jnum 1)] := by
    show collectOut [("id", .ok (some (jnum 1))), ("name", .ok none),
      ("role", .ok none),
      ("isActive", .ok ((boolFromString (jstr s)).map JValue.jbool))] =
      [("id", jnum 1)]
    rw [hb]
    rfl
  show parseObjWith userParamFields (fun _ => [])
    (jobj [("id", jnum 1), ("isActive", jstr s)]) = _
  rw [parseObjWith_of_no_errs userParamFields (fun _ => []) _ hnoerr, hout]

/-- Witness for C8 at the non-literal string "TRUE" (case matters). -/
theorem claim_C8_bool_from_string_witness :
    ("TRUE" : String) ≠ "true" ∧ ("TRUE" : String) ≠ "false" ∧
    boolFromString (jstr "TRUE") = none ∧
    UserParamSchema.parse
        (jobj [("id", jnum 1), ("isActive", jstr "TRUE")]) =
      .ok (jobj [("id", jnum 1)]) :=
  ⟨by decide, by decide,
   (claim_C8_bool_from_string "TRUE" (by decide) (by decide)).2.2.2.1,
   (claim_C8_bool_from_string "TRUE" (by decide) (by decide)).2.2.2.2.2.2⟩

/-- C9: one parse call over an input with several invalid fields
surfaces a single aggregate failure containing an entry for every
message of every invalid field — it does not stop at the first
violated field. -/
theorem claim_C9_error_aggregation
    (fs : List Field) (rfn : List (String × JValue) → List FieldError)
    (o : List (String × JValue)) (f g : Field)
    (esf esg : List String) (ef eg : String)
    (hf : f ∈ fs) (hg : g ∈ fs)
    (hef : f.rule (lookupField o f.name) = .error esf) (he1 : ef ∈ esf)
    (heg : g.rule (lookupField o g.name) = .error esg) (he2 : eg ∈ esg) :
    ∃ errs, parseObjWith fs rfn (jobj o) = .error errs ∧
      (f.name, ef) ∈ errs ∧ (g.name, eg) ∈ errs := by
  have hm1 := mem_collectErrs fs o f esf ef hf hef he1
  have hm2 := mem_collectErrs fs o g esg eg hg heg he2
  refine ⟨collectErrs (runFields fs o), ?_, hm1, hm2⟩
  apply parseObjWith_of_errs
  intro hnil
  rw [hnil] at hm1
  exact absurd hm1 (List.not_mem_nil _)

/-- Witness for C9: a payment whose amount and tax are both negative
fails once, with both fields' messages in the one aggregate. -/
theorem claim_C9_error_aggregation_witness :
    (requiredF "amount" ruleNonneg) ∈ paymentFields ∧
    (defaultF "tax" (jnum 0) ruleNonneg) ∈ paymentFields ∧
    (∃ errs, PaymentSchema.parse doublyInvalidPayment = .error errs ∧
      ("amount", "Number must be greater than or equal to 0") ∈ errs ∧
      ("tax", "Number must be greater than or equal to 0") ∈ errs) :=
  ⟨by simp [paymentFields], by simp [paymentFields],
   claim_C9_error_aggregation paymentFields (fun _ => [])
     [("id", jnum 1), ("amount", jnum (-50)), ("tax", jnum (-1)),
      ("tip", jnum 7), ("serviceCharge", jnum 2),
      ("paymentType", jstr "CREDIT_CARD"), ("createdAt", jdate 0),
      ("completedAt", jdate 0), ("orderId", jnum 1),
      ("status", jstr "PAID")]
     (requiredF "amount" ruleNonneg) (defaultF "tax" (jnum 0) ruleNonneg)
     _ _ _ _
     (by simp [paymentFields]) (by simp [paymentFields])
     rfl (List.mem_singleton_self _) rfl (List.mem_singleton_self _)⟩

/-- C10: order item payloads must be non-empty: `OrderCreateSchema` and
`OrderUpdateItemsSchema` reject a payload whose foodItems and
drinkItems lists are both empty, and accept a payload with at least one
item group. -/
theorem claim_C10_items_nonempty (tn gc sid : ℚ)
    (h1 : tn.den = 1) (h2 : 0 < tn) (h3 : gc.den = 1) (h4 : 0 < gc)
    (h5 : sid.den = 1) (h6 : 0 < sid) :
    OrderCreateSchema.parse (orderCreateNoItems tn gc sid) =
      .error [("", "Order must contain at least one food or drink item")] ∧
    OrderCreateSchema.parse (jobj [("tableNumber", jnum 1),
        ("guestsCount", jnum 1), ("serverId", jnum 1),
        ("foodItems", jarr [oneItemGroup])]) =
      .ok (jobj [("tableNumber", jnum 1), ("guestsCount", jnum 1),
        ("serverId", jnum 1), ("foodItems", jarr [oneItemGroupNorm]),
        ("drinkItems", jarr [])]) ∧
    OrderUpdateItemsSchema.parse (jobj [("foodItems", jarr []),
        ("drinkItems", jarr [])]) =
      .error [("", "Order must contain at least one food or drink item")] ∧
    OrderUpdateItemsSchema.parse
        (jobj [("drinkItems", jarr [oneItemGroup])]) =
      .ok (jobj [("foodItems", jarr []),
        ("drinkItems", jarr [oneItemGroupNorm])]) := by
  refine ⟨?_, rfl, rfl, rfl⟩
  have hrun : runFields orderCreateFields
      [("tableNumber", jnum tn), ("guestsCount", jnum gc),
       ("serverId", jnum sid), ("foodItems", jarr []),
       ("drinkItems", jarr [])] =
      [("tableNumber", .ok (some (jnum tn))),
       ("guestsCount", .ok (some (jnum gc))),
       ("serverId", .ok (some (jnum sid))),
       ("foodItems", .ok (some (jarr []))),
       ("drinkItems", .ok (some (jarr [])))] := by
    show [("tableNumber", Except.map some (ruleCoercePosInt (jnum tn))),
      ("guestsCount", Except.map some (ruleCoercePosInt (jnum gc))),
      ("serverId", Except.map some (ruleCoercePosInt (jnum sid))),
      ("foodItems",
        Except.map some (ruleArrayObjects guestGroupFields (jarr []))),
      ("drinkItems",
        Except.map some (ruleArrayObjects guestGroupFields (jarr [])))] = _
    rw [ruleCoercePosInt_int tn h1 h2, ruleCoercePosInt_int gc h3 h4,
      ruleCoercePosInt_int sid h5 h6]
    rfl
  have hnoerr : collectErrs (runFields orderCreateFields
      [("tableNumber", jnum tn), ("guestsCount", jnum gc),
       ("serverId", jnum sid), ("foodItems", jarr []),
       ("drinkItems", jarr [])]) = [] := by
    rw [hrun]
    rfl
  show parseObjWith orderCreateFields itemsPresent
    (jobj [("tableNumber", jnum tn), ("guestsCount", jnum gc),
       ("serverId", jnum sid), ("foodItems", jarr []),
       ("drinkItems", jarr [])]) = _
  rw [parseObjWith_of_no_errs orderCreateFields itemsPresent _ hnoerr, hrun]
  rfl

/-- Witness for C10 at table 1, one guest, server 1. -/
theorem claim_C10_items_nonempty_witness :
    ((1 : ℚ).den = 1 ∧ (0 : ℚ) < 1) ∧
    OrderCreateSchema.parse (orderCreateNoItems 1 1 1) =
      .error [("", "Order must contain at least one food or drink item")] :=
  ⟨⟨by decide, by decide⟩,
   (claim_C10_items_nonempty 1 1 1 (by decide) (by decide) (by decide)
     (by decide) (by decide) (by decide)).1⟩

end ServeMate
